import Mathlib

/-!
Verification development for the alice_reports harvesting and research engine.

The definitions below are a shallow embedding of the Python source:

* `services/crawler_service.py` — date resolution (`_parse_publish_date`,
  `_parse_chinese_date`, `_extract_date_from_content`), per-URL retry
  (`_crawl_with_retry`), persistence (`_save_single_result`,
  `_filter_new_urls`) and the crawl run entry point (`run_crawler_task`);
* `services/deep_research_service.py` — the research loop
  (`conduct_deep_research`), AI-response parsing (`_parse_ai_response`),
  search-result persistence (`_save_search_result_to_db`), the time-window
  mapping (`_parse_time_range`) and the knowledge-base query ordering;
* `services/llm_service.py` — `filter_articles_by_keywords`.

External collaborators (the network fetch, the LLM, the search provider,
the `dateutil` fuzzy parser) are modelled as explicit oracle parameters;
`datetime.now()` / `datetime.utcnow()` are modelled as an explicit `now`
argument.  Machine-level details (the event loop, real sleeping) are
modelled by recording the requested delays in traces.
-/

/-! ## Python `datetime` values

Python `datetime.datetime` objects are naive timestamps with fields
year/month/day/hour/minute/second (microseconds are always zeroed by the
code paths modelled here, so they are omitted).  Comparison is
lexicographic on the fields, as in CPython. -/

structure Datetime where
  year : Nat
  month : Nat
  day : Nat
  hour : Nat
  minute : Nat
  second : Nat
deriving DecidableEq, Repr

/-- Strict lexicographic order on datetimes (Python `<` on naive datetimes). -/
def dt_lt (a b : Datetime) : Prop :=
  a.year < b.year ∨ (a.year = b.year ∧
    (a.month < b.month ∨ (a.month = b.month ∧
      (a.day < b.day ∨ (a.day = b.day ∧
        (a.hour < b.hour ∨ (a.hour = b.hour ∧
          (a.minute < b.minute ∨ (a.minute = b.minute ∧
            a.second < b.second)))))))))

instance (a b : Datetime) : Decidable (dt_lt a b) := by
  unfold dt_lt; infer_instance

/-- Non-strict lexicographic order on datetimes (Python `<=`). -/
def dt_le (a b : Datetime) : Prop := dt_lt a b ∨ a = b

instance (a b : Datetime) : Decidable (dt_le a b) := by
  unfold dt_le; infer_instance


/-! ## Proleptic Gregorian calendar arithmetic

Python `datetime` validates its constructor arguments and implements
`timedelta` arithmetic on the proleptic Gregorian calendar; we model both
through a days-since-epoch conversion (the standard civil-date algorithm). -/

def is_leap (y : Nat) : Bool :=
  (y % 4 = 0 && y % 100 ≠ 0) || y % 400 = 0

def days_in_month (y m : Nat) : Nat :=
  if m = 1 then 31 else if m = 2 then (if is_leap y then 29 else 28)
  else if m = 3 then 31 else if m = 4 then 30 else if m = 5 then 31
  else if m = 6 then 30 else if m = 7 then 31 else if m = 8 then 31
  else if m = 9 then 30 else if m = 10 then 31 else if m = 11 then 30
  else 31

/-- Python datetime constructor: validates all fields (MINYEAR=1, MAXYEAR=9999);
out-of-range arguments raise ValueError, modelled as `none`. -/
def mk_datetime (y mo d h mi s : Nat) : Option Datetime :=
  if 1 ≤ y ∧ y ≤ 9999 ∧ 1 ≤ mo ∧ mo ≤ 12 ∧ 1 ≤ d ∧ d ≤ days_in_month y mo
      ∧ h ≤ 23 ∧ mi ≤ 59 ∧ s ≤ 59 then
    some ⟨y, mo, d, h, mi, s⟩
  else
    none

/-- Days since 1970-01-01 of a civil date (floor-division form of the
standard civil-from-days algorithm, matching Python's ordinal arithmetic). -/
def days_from_civil (y m d : Int) : Int :=
  let y2 : Int := if m ≤ 2 then y - 1 else y
  let era : Int := Int.fdiv y2 400
  let yoe : Int := y2 - era * 400
  let mp : Int := if 2 < m then m - 3 else m + 9
  let doy : Int := Int.fdiv (153 * mp + 2) 5 + d - 1
  let doe : Int := yoe * 365 + Int.fdiv yoe 4 - Int.fdiv yoe 100 + doy
  era * 146097 + doe - 719468

/-- Inverse of `days_from_civil`. -/
def civil_from_days (z0 : Int) : Int × Int × Int :=
  let z : Int := z0 + 719468
  let era : Int := Int.fdiv z 146097
  let doe : Int := z - era * 146097
  let yoe : Int :=
    Int.fdiv (doe - Int.fdiv doe 1460 + Int.fdiv doe 36524 - Int.fdiv doe 146096) 365
  let y : Int := yoe + era * 400
  let doy : Int := doe - (365 * yoe + Int.fdiv yoe 4 - Int.fdiv yoe 100)
  let mp : Int := Int.fdiv (5 * doy + 2) 153
  let d : Int := doy - Int.fdiv (153 * mp + 2) 5 + 1
  let m : Int := if mp < 10 then mp + 3 else mp - 9
  (if m ≤ 2 then y + 1 else y, m, d)

def dt_to_sec (a : Datetime) : Int :=
  days_from_civil a.year a.month a.day * 86400
    + a.hour * 3600 + a.minute * 60 + a.second

def dt_from_sec (t : Int) : Datetime :=
  let days : Int := Int.fdiv t 86400
  let rem : Int := t - days * 86400
  let c := civil_from_days days
  ⟨c.1.toNat, c.2.1.toNat, c.2.2.toNat,
    (Int.fdiv rem 3600).toNat, (Int.fdiv rem 60 % 60).toNat, (rem % 60).toNat⟩

/-- Python `dt - timedelta(seconds=k)`; an OverflowError (result outside
year 1..9999) is modelled as `none` (the callers catch it). -/
def dt_sub_seconds (a : Datetime) (k : Int) : Option Datetime :=
  let r := dt_from_sec (dt_to_sec a - k)
  if 1 ≤ r.year ∧ r.year ≤ 9999 then some r else none

/-- Python `dt.replace(hour=h, minute=mi, second=0, microsecond=0)`:
ValueError on out-of-range fields is modelled as `none`. -/
def dt_replace_hm (a : Datetime) (h mi : Nat) : Option Datetime :=
  if h ≤ 23 ∧ mi ≤ 59 then some ⟨a.year, a.month, a.day, h, mi, 0⟩ else none


/-! ## String utilities

The Python code works with `str`; we work with `List Char`.  `split_first`
finds the first occurrence of a pattern (the basis of substring containment
and of the `re.search` model for fixed-text tags). -/

def is_ws_ch (c : Char) : Bool :=
  c = ' ' || c = '\t' || c = '\n' || c = '\r' || c = '\x0b' || c = '\x0c'

/-- Python `str.strip()`. -/
def trim_chars (l : List Char) : List Char :=
  ((l.dropWhile is_ws_ch).reverse.dropWhile is_ws_ch).reverse

/-- Split around the first occurrence of `pat`: returns the part before and
the part after, or `none` when `pat` does not occur. -/
def split_first (pat : List Char) : List Char → Option (List Char × List Char)
  | [] => if pat.isEmpty then some ([], []) else none
  | c :: rest =>
    if pat.isPrefixOf (c :: rest) then some ([], (c :: rest).drop pat.length)
    else
      match split_first pat rest with
      | some p => some (c :: p.1, p.2)
      | none => none

/-- Python `pat in s`. -/
def contains_sub (l pat : List Char) : Bool :=
  (split_first pat l).isSome

/-- Python `s.split(sep)` for a single-character separator. -/
def split_on_ch (sep : Char) (l : List Char) : List (List Char) :=
  match l with
  | [] => [[]]
  | c :: rest =>
    let r := split_on_ch sep rest
    if c = sep then [] :: r
    else match r with
      | [] => [[c]]
      | h :: t => (c :: h) :: t

/-- Numeric value of a digit string (Python `int` on a matched digit group). -/
def nat_digits (l : List Char) : Nat :=
  l.foldl (fun a c => a * 10 + (c.toNat - 48)) 0

/-- Python `int(s)` restricted to the plain digit strings the modelled code
can feed it: fails (ValueError, `none`) unless `s` is a non-empty run of
digits. -/
def int_of_chars (l : List Char) : Option Nat :=
  if l ≠ [] ∧ l.all Char.isDigit then some (nat_digits l) else none


/-! ## A matcher for the source's fixed regular expressions

Every regex the modelled code applies to page text is built from digit
groups with counted repetition, literal text, small character classes and
whitespace runs.  `Tok` reifies exactly those constructs and `match_toks`
implements Python's leftmost, greedy-with-backtracking matching for them
(`re.search` = `search_toks` / `search_segs`, anchored `re.match` with `$`
via the `eos` token). -/

inductive Tok where
  | dgt (lo : Nat) (hi : Option Nat)
  | lit (s : String)
  | anyOf (s : String)
  | alt (ss : List String)
  | ws0
  | ws1
  | eos
deriving Repr, DecidableEq

/-- Try `f` on `n, n-1, ..., lo` and return the first success (greedy
backtracking over the width of a digit group). -/
def try_lens (f : Nat → Option (List (List Char) × List Char)) (lo : Nat) :
    Nat → Option (List (List Char) × List Char)
  | 0 => if lo = 0 then f 0 else none
  | n + 1 =>
    if n + 1 < lo then none
    else
      match f (n + 1) with
      | some r => some r
      | none => try_lens f lo n

/-- Try the alternatives of an alternation in order and return the first
success. -/
def try_alts (f : String → Option (List (List Char) × List Char)) :
    List String → Option (List (List Char) × List Char)
  | [] => none
  | s :: rest =>
    match f s with
    | some r => some r
    | none => try_alts f rest

/-- Match a token sequence at the start of `l`, calling `cont` on the
remaining input; collects the text of each digit group in order, followed
by whatever groups `cont` produces. -/
def match_toks (cont : List Char → Option (List (List Char) × List Char)) :
    List Tok → List Char → Option (List (List Char) × List Char)
  | [], l => cont l
  | .dgt lo hi :: ts, l =>
    let run := (l.takeWhile Char.isDigit).length
    let mx := match hi with | some h => min h run | none => run
    try_lens (fun n =>
      if n < lo then none
      else
        match match_toks cont ts (l.drop n) with
        | some (gs, r) => some (l.take n :: gs, r)
        | none => none) lo mx
  | .lit s :: ts, l =>
    if s.toList.isPrefixOf l then match_toks cont ts (l.drop s.length) else none
  | .anyOf s :: ts, l =>
    match l with
    | [] => none
    | c :: l2 => if s.toList.contains c then match_toks cont ts l2 else none
  | .alt ss :: ts, l =>
    try_alts (fun s =>
      if s.toList.isPrefixOf l then match_toks cont ts (l.drop s.toList.length)
      else none) ss
  | .ws0 :: ts, l => match_toks cont ts (l.dropWhile is_ws_ch)
  | .ws1 :: ts, l =>
    match l with
    | [] => none
    | c :: _ => if is_ws_ch c then match_toks cont ts (l.dropWhile is_ws_ch) else none
  | .eos :: ts, l => if l.isEmpty then match_toks cont ts [] else none

/-- Python `re.search`: try the pattern at every start position, leftmost
match wins; returns the digit groups of the match. -/
def search_toks (ts : List Tok) : List Char → Option (List (List Char))
  | [] =>
    match match_toks (fun r => some ([], r)) ts [] with
    | some (gs, _) => some gs
    | none => none
  | c :: l2 =>
    match match_toks (fun r => some ([], r)) ts (c :: l2) with
    | some (gs, _) => some gs
    | none => search_toks ts l2

/-- Python `re.match` anchored at the start (combined with `eos` this gives
fullmatch-style patterns such as `^...$`). -/
def match_toks_start (ts : List Tok) (l : List Char) : Option (List (List Char)) :=
  match match_toks (fun r => some ([], r)) ts l with
  | some (gs, _) => some gs
  | none => none

def count_dgt (ts : List Tok) : Nat :=
  ts.countP (fun t => match t with | .dgt _ _ => true | _ => false)

/-- Match a sequence of segments; a segment marked `true` is a capture
group whose matched TEXT (span) is recorded — this models regexes whose
groups span several tokens, e.g. `(\d4-\d2-\d2)[ws]+(\d2:\d2)`. -/
def match_segs : List (Bool × List Tok) → List Char → Option (List (List Char) × List Char)
  | [], l => some ([], l)
  | (isGrp, ts) :: ss, l =>
    match match_toks (fun rest =>
        match match_segs ss rest with
        | some (gs, fin) =>
          some ((if isGrp then [l.take (l.length - rest.length)] else []) ++ gs, fin)
        | none => none) ts l with
    | some (gs, fin) => some (gs.drop (count_dgt ts), fin)
    | none => none

/-- Python `re.search` for segment patterns: span groups of the leftmost match. -/
def search_segs (ss : List (Bool × List Tok)) : List Char → Option (List (List Char))
  | [] =>
    match match_segs ss [] with
    | some (gs, _) => some gs
    | none => none
  | c :: l2 =>
    match match_segs ss (c :: l2) with
    | some (gs, _) => some gs
    | none => search_segs ss l2


/-! ## Date Resolver (`_parse_publish_date` and helpers)

`fuzzy` is the oracle for the external `dateutil.parser.parse(_, fuzzy=True)`
call; `dateutil_available` models the guarded import at the top of
`crawler_service.py`. -/

def d4 : Tok := Tok.dgt 4 (some 4)

def d12 : Tok := Tok.dgt 1 (some 2)

def d2t : Tok := Tok.dgt 2 (some 2)

def dplus : Tok := Tok.dgt 1 none

/-- The ordered `chinese_patterns` table of `_parse_publish_date`, each with
its Python pattern source text (whose characters the branch conditions of
`_parse_chinese_date` inspect) and its token translation. -/
def chinese_patterns : List (String × List Tok) :=
  [("(\\d\x7b4\x7d)年(\\d\x7b1,2\x7d)月(\\d\x7b1,2\x7d)日[\\s]*(\\d\x7b1,2\x7d):(\\d\x7b2\x7d)",
      [d4, Tok.lit "年", d12, Tok.lit "月", d12, Tok.lit "日", Tok.ws0, d12, Tok.lit ":", d2t]),
   ("(\\d\x7b4\x7d)年(\\d\x7b1,2\x7d)月(\\d\x7b1,2\x7d)日",
      [d4, Tok.lit "年", d12, Tok.lit "月", d12, Tok.lit "日"]),
   ("(\\d\x7b1,2\x7d)月(\\d\x7b1,2\x7d)日[\\s]*(\\d\x7b1,2\x7d):(\\d\x7b2\x7d)",
      [d12, Tok.lit "月", d12, Tok.lit "日", Tok.ws0, d12, Tok.lit ":", d2t]),
   ("(\\d\x7b1,2\x7d)月(\\d\x7b1,2\x7d)日",
      [d12, Tok.lit "月", d12, Tok.lit "日"]),
   ("今天[\\s]*(\\d\x7b1,2\x7d):(\\d\x7b2\x7d)",
      [Tok.lit "今天", Tok.ws0, d12, Tok.lit ":", d2t]),
   ("昨天[\\s]*(\\d\x7b1,2\x7d):(\\d\x7b2\x7d)",
      [Tok.lit "昨天", Tok.ws0, d12, Tok.lit ":", d2t]),
   ("前天[\\s]*(\\d\x7b1,2\x7d):(\\d\x7b2\x7d)",
      [Tok.lit "前天", Tok.ws0, d12, Tok.lit ":", d2t]),
   ("今天", [Tok.lit "今天"]),
   ("昨天", [Tok.lit "昨天"]),
   ("前天", [Tok.lit "前天"]),
   ("(\\d+)小时前", [dplus, Tok.lit "小时前"]),
   ("(\\d+)分钟前", [dplus, Tok.lit "分钟前"]),
   ("刚刚", [Tok.lit "刚刚"])]

/-- First pattern of the table that `re.search`-matches, with its groups. -/
def find_chinese_match : List (String × List Tok) → List Char →
    Option (String × List (List Char))
  | [], _ => none
  | (ps, ts) :: rest, l =>
    match search_toks ts l with
    | some gs => some (ps, gs)
    | none => find_chinese_match rest l

/-- Embedding of `CrawlerService._parse_chinese_date`: branches first on
substrings of the original date string, then on characters of the matched
pattern's source text; any exception (invalid `datetime`/`replace`
arguments, missing group) yields `none`. -/
def parse_chinese_date (now : Datetime) (groups : List (List Char))
    (patStr : String) (orig : List Char) : Option Datetime :=
  let gl := groups.map nat_digits
  let hasY := contains_sub patStr.toList "年".toList
  let hasM := contains_sub patStr.toList "月".toList
  let hasD := contains_sub patStr.toList "日".toList
  if contains_sub orig "今天".toList = true ∧ 2 ≤ groups.length then
    match gl.reverse with
    | mi :: h :: _ => dt_replace_hm now h mi
    | _ => none
  else if contains_sub orig "昨天".toList = true ∧ 2 ≤ groups.length then
    match gl.reverse with
    | mi :: h :: _ => (dt_sub_seconds now 86400).bind (fun d => dt_replace_hm d h mi)
    | _ => none
  else if contains_sub orig "前天".toList = true ∧ 2 ≤ groups.length then
    match gl.reverse with
    | mi :: h :: _ => (dt_sub_seconds now 172800).bind (fun d => dt_replace_hm d h mi)
    | _ => none
  else if contains_sub orig "今天".toList then dt_replace_hm now 12 0
  else if contains_sub orig "昨天".toList then
    (dt_sub_seconds now 86400).bind (fun d => dt_replace_hm d 12 0)
  else if contains_sub orig "前天".toList then
    (dt_sub_seconds now 172800).bind (fun d => dt_replace_hm d 12 0)
  else if contains_sub orig "小时前".toList then
    match gl with
    | h :: _ => dt_sub_seconds now ((h : Int) * 3600)
    | [] => none
  else if contains_sub orig "分钟前".toList then
    match gl with
    | m :: _ => dt_sub_seconds now ((m : Int) * 60)
    | [] => none
  else if contains_sub orig "刚刚".toList then dt_sub_seconds now 300
  else if hasY = true ∧ hasM = true ∧ hasD = true ∧ 5 ≤ groups.length then
    match gl with
    | y :: mo :: d :: h :: mi :: _ => mk_datetime y mo d h mi 0
    | _ => none
  else if hasM = true ∧ hasD = true ∧ 4 ≤ groups.length then
    match gl with
    | mo :: d :: h :: mi :: _ => mk_datetime now.year mo d h mi 0
    | _ => none
  else if hasY = true ∧ hasM = true ∧ hasD = true then
    match gl with
    | y :: mo :: d :: _ => mk_datetime y mo d 12 0 0
    | _ => none
  else if hasM = true ∧ hasD = true then
    match gl with
    | mo :: d :: _ => mk_datetime now.year mo d 12 0 0
    | _ => none
  else none

/-- The ordered `date_patterns` table of `_extract_date_from_content`
(span-capture form; group 1 of each pattern is the returned text). -/
def extract_date_patterns : List (List (Bool × List Tok)) :=
  [[(true, [d4, Tok.lit "年", d12, Tok.lit "月", d12, Tok.lit "日", Tok.ws0,
      d12, Tok.lit ":", d2t])],
   [(true, [d4, Tok.lit "年", d12, Tok.lit "月", d12, Tok.lit "日"])],
   [(true, [d4, Tok.lit "-", d12, Tok.lit "-", d12, Tok.ws1, d12, Tok.lit ":",
      d2t, Tok.lit ":", d2t])],
   [(true, [d4, Tok.lit "-", d12, Tok.lit "-", d12, Tok.ws1, d12, Tok.lit ":", d2t])],
   [(true, [d4, Tok.lit "-", d12, Tok.lit "-", d12])],
   [(true, [d12, Tok.lit "月", d12, Tok.lit "日", Tok.ws0, d12, Tok.lit ":", d2t])],
   [(true, [d12, Tok.lit "月", d12, Tok.lit "日"])],
   [(true, [dplus, Tok.lit "小时前"])],
   [(true, [dplus, Tok.lit "分钟前"])],
   [(true, [Tok.alt ["今天", "昨天", "前天"]])],
   [(true, [Tok.lit "刚刚"])],
   [(false, [Tok.lit "发布于", Tok.ws0]),
    (true, [d4, Tok.lit "-", d12, Tok.lit "-", d12, Tok.ws0, d12, Tok.lit ":", d2t])],
   [(false, [Tok.lit "时间", Tok.anyOf ":：", Tok.ws0]),
    (true, [d4, Tok.lit "-", d12, Tok.lit "-", d12, Tok.ws0, d12, Tok.lit ":", d2t])],
   [(true, [d4, Tok.lit "/", d12, Tok.lit "/", d12, Tok.ws1, d12, Tok.lit ":", d2t])]]

def find_extract_match : List (List (Bool × List Tok)) → List Char → Option (List Char)
  | [], _ => none
  | p :: rest, l =>
    match search_segs p l with
    | some (g :: _) => some g
    | some [] => none
    | none => find_extract_match rest l

/-- Embedding of `CrawlerService._extract_date_from_content`. -/
def extract_date_from_content (content : List Char) : Option (List Char) :=
  if content.isEmpty then none
  else find_extract_match extract_date_patterns content

/-- The separator-format branch: Python splits the matched date span on
`-` (or `/`), converts the parts with `int`, and builds a datetime; any
ValueError falls through to the next strategy (`none` here). -/
def std_datetime_of (datePart timePart : List Char) : Option Datetime :=
  let dateNums : Option (Nat × Nat × Nat) :=
    if contains_sub datePart "-".toList then
      match (split_on_ch '-' datePart).map int_of_chars with
      | [some y, some mo, some d] => some (y, mo, d)
      | _ => none
    else
      match (split_on_ch '/' datePart).map int_of_chars with
      | [some y, some mo, some d] => some (y, mo, d)
      | _ => none
  match dateNums with
  | none => none
  | some (y, mo, d) =>
    match (split_on_ch ':' timePart).map int_of_chars with
    | [some h, some mi] => mk_datetime y mo d h mi 0
    | _ => none

def std_datetime_segs : List (Bool × List Tok) :=
  [(true, [d4, Tok.anyOf "-/", d12, Tok.anyOf "-/", d12]), (false, [Tok.ws1]),
   (true, [d12, Tok.lit ":", d2t])]

/-! English `strptime` formats (the `english_formats` list); `strptime`
lower-cases its input, requires the whole string to match, and defaults
missing time fields to zero. -/

def month_abbrevs : List String :=
  ["jan", "feb", "mar", "apr", "may", "jun", "jul", "aug", "sep", "oct", "nov", "dec"]

def month_fulls : List String :=
  ["january", "february", "march", "april", "may", "june", "july", "august",
   "september", "october", "november", "december"]

def parse_month_name : List String → Nat → List Char → Option (Nat × List Char)
  | [], _, _ => none
  | s :: rest, i, l =>
    if s.toList.isPrefixOf l then some (i, l.drop s.toList.length)
    else parse_month_name rest (i + 1) l

/-- Format `%b %d, %Y` / `%B %d, %Y`. -/
def strptime_month_name (names : List String) (l : List Char) : Option Datetime :=
  match parse_month_name names 1 l with
  | some (mo, r) =>
    match match_toks_start [Tok.ws1, d12, Tok.lit ",", Tok.ws1, d4, Tok.eos] r with
    | some [dayCs, yearCs] => mk_datetime (nat_digits yearCs) mo (nat_digits dayCs) 0 0 0
    | _ => none
  | none => none

/-- Format `%Y-%m-%d %H:%M:%S`. -/
def strptime_ymd_hms (l : List Char) : Option Datetime :=
  match match_toks_start [d4, Tok.lit "-", d12, Tok.lit "-", d12, Tok.ws1,
      d12, Tok.lit ":", d12, Tok.lit ":", d12, Tok.eos] l with
  | some [y, mo, d, h, mi, s] =>
    mk_datetime (nat_digits y) (nat_digits mo) (nat_digits d)
      (nat_digits h) (nat_digits mi) (nat_digits s)
  | _ => none

/-- Format `%Y-%m-%d %H:%M`. -/
def strptime_ymd_hm (l : List Char) : Option Datetime :=
  match match_toks_start [d4, Tok.lit "-", d12, Tok.lit "-", d12, Tok.ws1,
      d12, Tok.lit ":", d12, Tok.eos] l with
  | some [y, mo, d, h, mi] =>
    mk_datetime (nat_digits y) (nat_digits mo) (nat_digits d)
      (nat_digits h) (nat_digits mi) 0
  | _ => none

/-- Format `%m/%d/%Y`. -/
def strptime_mdy (l : List Char) : Option Datetime :=
  match match_toks_start [d12, Tok.lit "/", d12, Tok.lit "/", d4, Tok.eos] l with
  | some [mo, d, y] => mk_datetime (nat_digits y) (nat_digits mo) (nat_digits d) 0 0 0
  | _ => none

/-- Format `%d/%m/%Y`. -/
def strptime_dmy (l : List Char) : Option Datetime :=
  match match_toks_start [d12, Tok.lit "/", d12, Tok.lit "/", d4, Tok.eos] l with
  | some [d, mo, y] => mk_datetime (nat_digits y) (nat_digits mo) (nat_digits d) 0 0 0
  | _ => none

/-- The first of the six `english_formats` that parses the (lower-cased)
string. -/
def english_parse (low : List Char) : Option Datetime :=
  match strptime_month_name month_abbrevs low with
  | some p => some p
  | none =>
    match strptime_month_name month_fulls low with
    | some p => some p
    | none =>
      match strptime_ymd_hms low with
      | some p => some p
      | none =>
        match strptime_ymd_hm low with
        | some p => some p
        | none =>
          match strptime_mdy low with
          | some p => some p
          | none => strptime_dmy low

/-- The `english_formats` loop: the first format that parses wins, and a
parsed date lying strictly in the future is clamped to `now`. -/
def english_formats_result (now : Datetime) (ds : List Char) : Option Datetime :=
  match english_parse (ds.map Char.toLower) with
  | some p => some (if dt_lt now p then now else p)
  | none => none

/-- Tail of `_parse_publish_date` after all explicit patterns have failed:
the `dateutil` fuzzy parse (when available) and then the English formats.
Both clamp a strictly-future parse to `now`; a failure of both is `none`. -/
def fuzzy_english_tail (fuzzy : String → Option Datetime)
    (dateutil_available : Bool) (now : Datetime) (ds : List Char) : Option Datetime :=
  let fuzzyRes : Option Datetime :=
    if dateutil_available then
      match fuzzy (String.mk ds) with
      | some p => some (if dt_lt now p then now else p)
      | none => none
    else none
  match fuzzyRes with
  | some r => some r
  | none => english_formats_result now ds

/-- Embedding of `CrawlerService._parse_publish_date`.  Strategy order, as
in the source: fall back to `_extract_date_from_content` when the date
string is blank; Chinese patterns (first match decides, even when its
interpretation fails); the dash-or-slash separated date-plus-time form;
the cleaned `YYYY-MM-DD` and `YYYY/MM/DD` forms (whose ValueError aborts
with `none`); then the fuzzy/English tail. -/
def parse_publish_date (fuzzy : String → Option Datetime)
    (dateutil_available : Bool) (now : Datetime)
    (date_str markdown_content title : String) : Option Datetime :=
  let ds0 := date_str.toList
  let ds1 :=
    if (trim_chars ds0).isEmpty then
      match extract_date_from_content
          (markdown_content.toList ++ " ".toList ++ title.toList) with
      | some e => e
      | none => []
    else ds0
  if (trim_chars ds1).isEmpty then none
  else
    let ds := trim_chars ds1
    match find_chinese_match chinese_patterns ds with
    | some (ps, gs) => parse_chinese_date now gs ps ds
    | none =>
      let stdResult : Option Datetime :=
        match search_segs std_datetime_segs ds with
        | some (dp :: tp :: _) => std_datetime_of dp tp
        | _ => none
      match stdResult with
      | some dt => some dt
      | none =>
        let clean := ds.filter (fun c => c.isDigit || c = '-' || c = '/')
        match match_toks_start [d4, Tok.lit "-", d12, Tok.lit "-", d12, Tok.eos] clean with
        | some _ =>
          (match (split_on_ch '-' clean).map int_of_chars with
           | [some y, some mo, some d] => mk_datetime y mo d 12 0 0
           | _ => none)
        | none =>
          match match_toks_start [d4, Tok.lit "/", d12, Tok.lit "/", d12, Tok.eos] clean with
          | some _ =>
            (match (split_on_ch '/' clean).map int_of_chars with
             | [some y, some mo, some d] => mk_datetime y mo d 12 0 0
             | _ => none)
          | none => fuzzy_english_tail fuzzy dateutil_available now ds

def no_fuzzy : String → Option Datetime := fun _ => none


/-! ## Store model (`models.py`) and crawl persistence

The SQLAlchemy store is modelled as in-memory lists; row insertion is list
append, `filter_by(url=..., status=...).first()` is a list search.  The
embedding models the store itself as reliable (commit/rollback failures are
environmental); `crawled_at`/`last_run` defaults use the explicit `now`. -/

inductive RecStatus where
  | success
  | failed
deriving DecidableEq, Repr

structure CrawlRecord where
  crawler_config_id : Nat
  url : String
  title : String
  content : String
  author : String
  publish_date : Option Datetime
  crawled_at : Datetime
  status : RecStatus
  error_message : String
deriving DecidableEq, Repr

structure CrawlerConfig where
  id : Nat
  name : String
  list_url : String
  url_regex : String
  frequency_seconds : Nat
  is_active : Bool
  last_run : Option Datetime
deriving DecidableEq, Repr

/-- Return value of `crawl_article_content` (and of `_crawl_with_retry`):
the Python result dict.  Every return path of `crawl_article_content` sets
`url` to its argument. -/
structure CrawlResult where
  success : Bool
  url : String
  title : String
  content : String
  author : String
  date : String
  markdown : String
  error : String
deriving DecidableEq, Repr

/-- What one fetch attempt of the external crawler yields for a URL
(everything except the echoed URL); an in-flight exception is equivalent to
a failure result, which is how `_crawl_with_retry` treats it. -/
structure FetchOutcome where
  success : Bool
  title : String
  content : String
  author : String
  date : String
  markdown : String
  error : String
deriving DecidableEq, Repr

def FetchOutcome.toResult (o : FetchOutcome) (url : String) : CrawlResult :=
  ⟨o.success, url, o.title, o.content, o.author, o.date, o.markdown, o.error⟩

/-- Python `CrawlRecord.query.filter_by(url=..., status='success').first()`
is Some iff a success record with that url exists. -/
def success_url_exists (store : List CrawlRecord) (url : String) : Bool :=
  store.any (fun r => r.url = url && r.status = RecStatus.success)

/-- Embedding of `CrawlerService._save_single_result`: re-check for an
existing success record with the same url (skip as a no-op success when
found), then insert one success record (with the resolved publish date) or
one failed record, and commit immediately.  The returned Bool is the
function's return value. -/
def save_single_result (fuzzy : String → Option Datetime)
    (dateutil_available : Bool) (now : Datetime) (result : CrawlResult)
    (config_id : Nat) (store : List CrawlRecord) : List CrawlRecord × Bool :=
  if success_url_exists store result.url then (store, true)
  else if result.success then
    let publish_date :=
      parse_publish_date fuzzy dateutil_available now
        result.date result.markdown result.title
    (store ++ [⟨config_id, result.url, result.title, result.content,
      result.author, publish_date, now, RecStatus.success, ""⟩], true)
  else
    (store ++ [⟨config_id, result.url, "", "", "", none, now,
      RecStatus.failed, result.error⟩], true)

/-- Embedding of `CrawlerService._filter_new_urls`: keep the URLs with no
success record in the store, preserving order. -/
def filter_new_urls (urls : List String) (store : List CrawlRecord) : List String :=
  urls.filter (fun u => !(success_url_exists store u))

/-! ## Per-URL retry (`_crawl_with_retry`) -/

/-- Observable trace of one `_crawl_with_retry` call: the returned result,
how many times `crawl_article_content` was invoked, and the backoff delays
slept (in seconds, in order). -/
structure RetryTrace where
  result : CrawlResult
  calls : Nat
  delays : List Nat
deriving DecidableEq, Repr

/-- The retry loop body: `for attempt in range(max_retries)`, sleeping
`(2 ** attempt)` seconds when `attempt > 0` before fetching; a success
returns immediately; exhaustion returns a single failed result. -/
def crawl_with_retry_go (fetch : Nat → FetchOutcome) (url : String) :
    Nat → Nat → List Nat → String → RetryTrace
  | 0, attempt, delays, lastError =>
    ⟨⟨false, url, "", "", "", "", "",
      "重试 3 次后失败: " ++ lastError⟩, attempt, delays⟩
  | fuel + 1, attempt, delays, lastError =>
    let delays2 := if 0 < attempt then delays ++ [2 ^ attempt] else delays
    let r := (fetch attempt).toResult url
    if r.success then ⟨r, attempt + 1, delays2⟩
    else crawl_with_retry_go fetch url fuel (attempt + 1) delays2 r.error

/-- Embedding of `CrawlerService._crawl_with_retry` with `max_retries=3`. -/
def crawl_with_retry (fetch : Nat → FetchOutcome) (url : String) : RetryTrace :=
  crawl_with_retry_go fetch url 3 0 [] ""

def always_fail_fetch : Nat → FetchOutcome :=
  fun _ => ⟨false, "", "", "", "", "", "connection timeout"⟩


/-! ## Crawl run entry point (`run_crawler_task`) -/

/-- The value `run_crawler_task` hands back: the stats dict on the normal
paths, the bare empty list on the top-level exception path. -/
inductive RunOutcome where
  | stats (success : Bool) (saved_count failed_count total_processed : Nat)
  | error_list
deriving DecidableEq, Repr

/-- Observable result of one crawl run: the updated store, the updated
`last_run` of the source config, the URLs actually fetched (in order), and
the returned value. -/
structure RunTrace where
  store : List CrawlRecord
  last_run : Option Datetime
  fetched : List String
  outcome : RunOutcome
deriving Repr

/-- Embedding of `CrawlerService.run_crawler_task`.

`discovered` is the URL list produced by `extract_urls_from_page` (already
deduplicated there; it returns `[]` on its own errors).  `unexpected`
models an exception escaping the main body into the top-level handler
(e.g. a failing import or attribute access); all narrower failures are
caught inside the helpers.  Every exit path updates `last_run`. -/
def run_crawler_task (fetch : String → Nat → FetchOutcome)
    (fuzzy : String → Option Datetime) (dateutil_available : Bool)
    (now : Datetime) (unexpected : Option String) (discovered : List String)
    (config : CrawlerConfig) (store : List CrawlRecord) : RunTrace :=
  match unexpected with
  | some _ => ⟨store, some now, [], RunOutcome.error_list⟩
  | none =>
    if discovered.isEmpty then
      ⟨store, some now, [], RunOutcome.stats true 0 0 0⟩
    else
      let new_urls := filter_new_urls discovered store
      if new_urls.isEmpty then
        ⟨store, some now, [], RunOutcome.stats true 0 0 0⟩
      else
        let step := fun (acc : List CrawlRecord × Nat × Nat × List String) (url : String) =>
          let tr := crawl_with_retry (fetch url) url
          let sv := save_single_result fuzzy dateutil_available now tr.result config.id acc.1
          (sv.1,
            (if sv.2 then acc.2.1 + 1 else acc.2.1),
            (if sv.2 then acc.2.2.1 else acc.2.2.1 + 1),
            acc.2.2.2 ++ [url])
        let fin := (new_urls.take 20).foldl step (store, 0, 0, [])
        ⟨fin.1, some now, fin.2.2.2,
          RunOutcome.stats true fin.2.1 fin.2.2.1 (fin.2.1 + fin.2.2.1)⟩

/-! ## Deep research service (`deep_research_service.py`) -/

/-- Embedding of `DeepResearchService._parse_time_range`. -/
def parse_time_range (time_range : String) : Nat :=
  if time_range = "24h" then 24
  else if time_range = "3d" then 72
  else if time_range = "7d" then 168
  else if time_range = "30d" then 720
  else 24

/-- An in-memory knowledge-base article (the dicts appended by
`_build_initial_knowledge_base` / `_execute_search_and_crawl`). -/
structure Article where
  title : String
  content : String
  url : String
  author : String
  date : String
  source : String
  crawled_at : String
deriving DecidableEq, Repr

/-- The decision parsed from an AI judge reply (`_parse_ai_response` builds
a dict with `action` of `finish` or `search`; `search` carries the keyword
list, which may be empty). -/
inductive AiDecision where
  | finish
  | search (keywords : List String)
deriving DecidableEq, Repr

def kw_open_tag : List Char := "<keywords_to_search>".toList

def kw_close_tag : List Char := "</keywords_to_search>".toList

/-- Group 1 of `re.search(r'<keywords_to_search>(.*?)</keywords_to_search>',
response, re.DOTALL)`: the text between the first opening tag and the first
closing tag after it. -/
def extract_keywords_block (l : List Char) : Option (List Char) :=
  match split_first kw_open_tag l with
  | none => none
  | some p =>
    match split_first kw_close_tag p.2 with
    | none => none
    | some q => some q.1

/-- Python `[k.strip() for k in text.split(',') if k.strip()]`. -/
def split_keywords (l : List Char) : List String :=
  ((split_on_ch ',' (trim_chars l)).map (fun k => trim_chars k)).filterMap
    (fun k => if k.isEmpty then none else some (String.mk k))

/-- Embedding of `DeepResearchService._parse_ai_response`: strip, look for
a finish marker, then for a keywords block; anything else parses to
`finish`. -/
def parse_ai_response (response : String) : AiDecision :=
  let r := trim_chars response.toList
  if contains_sub r "<finish />".toList || contains_sub r "<finish/>".toList then
    AiDecision.finish
  else
    match extract_keywords_block r with
    | some block => AiDecision.search (split_keywords block)
    | none => AiDecision.finish


/-- Embedding of `LLMService.filter_articles_by_keywords`: keep the
articles whose lower-cased title or content contains at least one of the
comma-separated keywords (case-insensitive, match-any); a blank keyword
configuration passes everything through. -/
def filter_articles_by_keywords (articles : List Article) (keywords : String) : List Article :=
  if (trim_chars keywords.toList).isEmpty then articles
  else
    let keyword_list := split_keywords keywords.toList
    if keyword_list.isEmpty then articles
    else
      articles.filter (fun a =>
        keyword_list.any (fun k =>
          contains_sub (a.title.toList.map Char.toLower) (k.toList.map Char.toLower)
          || contains_sub (a.content.toList.map Char.toLower) (k.toList.map Char.toLower)))

/-- One research-log entry (iteration number and the action recorded). -/
structure LogEntry where
  iteration : Nat
  action : AiDecision
deriving DecidableEq, Repr

/-- The iterate-judge-search loop of `conduct_deep_research`
(`while iteration_count < self.max_iterations`), with the AI judge
abstracted as `judge : iteration → current kb → raw response` and the
search round (`_execute_search_and_crawl`) abstracted as `search_exec`.
The structural fuel is exactly the remaining iteration budget. -/
def research_loop (judge : Nat → List Article → String)
    (search_exec : Nat → List String → List Article) :
    Nat → Nat → List Article → List LogEntry → Nat × List Article × List LogEntry
  | 0, count, kb, log => (count, kb, log)
  | fuel + 1, count, kb, log =>
    let count2 := count + 1
    let decision := parse_ai_response (judge count2 kb)
    let log2 := log ++ [⟨count2, decision⟩]
    match decision with
    | AiDecision.finish => (count2, kb, log2)
    | AiDecision.search kws =>
      if kws.isEmpty then (count2, kb, log2)
      else research_loop judge search_exec fuel count2 (kb ++ search_exec count2 kws) log2

/-- Result dict of `conduct_deep_research` (the fields the claims are
about). -/
structure ResearchResult where
  success : Bool
  report : Option String
  knowledge_base_size : Nat
  iterations : Nat
  research_log : List LogEntry
deriving DecidableEq, Repr

/-- Embedding of `DeepResearchService.conduct_deep_research` with
`max_iterations = 30`:  build the initial knowledge base (oracle input),
keyword-filter it, run the loop, then generate the final report
(`compose`, the `_generate_final_report` oracle). -/
def conduct_deep_research (judge : Nat → List Article → String)
    (search_exec : Nat → List String → List Article)
    (compose : List Article → String)
    (initial_articles : List Article) (filter_keywords : String) : ResearchResult :=
  if initial_articles.isEmpty then ⟨false, none, 0, 0, []⟩
  else
    let knowledge_base :=
      if filter_keywords ≠ "" then
        filter_articles_by_keywords initial_articles filter_keywords
      else initial_articles
    if knowledge_base.isEmpty then ⟨false, none, 0, 0, []⟩
    else
      let fin := research_loop judge search_exec 30 0 knowledge_base []
      ⟨true, some (compose fin.2.1), fin.2.1.length, fin.1, fin.2.2⟩

/-! ## Search-result persistence and the pseudo-source -/

/-- The slice of the configuration store the persistence paths touch:
crawler configs and crawl records. -/
structure DbState where
  configs : List CrawlerConfig
  records : List CrawlRecord

/-- Embedding of `DeepResearchService._save_search_result_to_db`: find or
create (inactive, frequency 0) the pseudo crawler named 深度研究, re-check
for an existing success record with the url, and insert a success record
with `publish_date=None`; the new config id models the autoincrement
primary key obtained from `db.session.flush()`. -/
def save_search_result_to_db (now : Datetime) (crawl_result : CrawlResult)
    (keyword : String) (st : DbState) : DbState :=
  let found := st.configs.find? (fun c => c.name = "深度研究")
  let fresh := (st.configs.map (fun c => c.id)).foldl max 0 + 1
  let cfg :=
    match found with
    | some c => c
    | none =>
      ⟨fresh, "深度研究",
        "https://news.google.com/search?q=深度研究&hl=zh-CN&gl=CN&ceid=CN:zh-Hans",
        "https://[^/]+/.*", 0, false, none⟩
  let configs2 :=
    match found with
    | some _ => st.configs
    | none => st.configs ++ [cfg]
  if success_url_exists st.records crawl_result.url then
    ⟨configs2, st.records⟩
  else
    ⟨configs2, st.records ++ [⟨cfg.id, crawl_result.url, crawl_result.title,
      crawl_result.content, crawl_result.author, none, now, RecStatus.success, ""⟩]⟩

/-- The query ordering used by `_process_single_crawler` and
`_get_deep_research_history`: `publish_date` descending with nulls last,
then `crawled_at` descending.  `kb_order_le a b` says `a` may appear no
later than `b`. -/
def kb_order_le (a b : CrawlRecord) : Prop :=
  match a.publish_date, b.publish_date with
  | some x, some y => dt_lt y x ∨ (x = y ∧ dt_le b.crawled_at a.crawled_at)
  | some _, none => True
  | none, some _ => False
  | none, none => dt_le b.crawled_at a.crawled_at

/-! ## Sequential persistence operations (for the uniqueness invariant) -/

/-- One persistence step against the shared store: either the crawl path
(`_save_single_result`) or the research search path
(`_save_search_result_to_db`), each with its own call context. -/
inductive PersistOp where
  | crawl_save (fuzzy : String → Option Datetime) (dateutil_available : Bool)
      (now : Datetime) (result : CrawlResult) (config_id : Nat)
  | search_save (now : Datetime) (result : CrawlResult) (keyword : String)

def apply_persist_op (st : DbState) : PersistOp → DbState
  | PersistOp.crawl_save fz av now res cid =>
    ⟨st.configs, (save_single_result fz av now res cid st.records).1⟩
  | PersistOp.search_save now res kw => save_search_result_to_db now res kw st

def apply_persist_ops (ops : List PersistOp) (st : DbState) : DbState :=
  ops.foldl apply_persist_op st

/-- The success-url uniqueness invariant: no two success records share a
url. -/
def unique_success (records : List CrawlRecord) : Prop :=
  records.Pairwise (fun a b =>
    ¬(a.status = RecStatus.success ∧ b.status = RecStatus.success ∧ a.url = b.url))


/-! ## Concrete fixtures used by the witnesses -/

def demo_article : Article := ⟨"t", "c", "http://e.x/1", "a", "", "s", ""⟩

def always_search_judge : Nat → List Article → String :=
  fun _ _ => "<keywords_to_search>chip</keywords_to_search>"

def empty_search_judge : Nat → List Article → String :=
  fun _ _ => "<keywords_to_search> , </keywords_to_search>"

def demo_now : Datetime := ⟨2026, 10, 12, 9, 0, 0⟩

def demo_search_result : CrawlResult :=
  ⟨true, "http://e.x/search-hit", "T", "C", "A", "", "", ""⟩

def demo_dated_record : CrawlRecord :=
  ⟨1, "u1", "", "", "", some demo_now, demo_now, RecStatus.success, ""⟩

def demo_dateless_record : CrawlRecord :=
  ⟨1, "u2", "", "", "", none, demo_now, RecStatus.success, ""⟩

def demo_existing_record : CrawlRecord :=
  ⟨1, "http://e.x/search-hit", "", "", "", none, demo_now, RecStatus.success, ""⟩

def demo_flaky_fetch : Nat → FetchOutcome :=
  fun i => if i = 1 then ⟨true, "T", "C", "A", "", "md", ""⟩
    else ⟨false, "", "", "", "", "", "boom"⟩

def demo_config : CrawlerConfig :=
  ⟨1, "demo", "http://e.x/list", "http://e.x/.*", 3600, true, none⟩


/-! ## Behaviour checks on concrete inputs -/

example : days_from_civil 1970 1 1 = 0 := by decide
example : days_from_civil 2025 9 11 = 20342 := by decide
example : civil_from_days 20342 = (2025, 9, 11) := by decide
example : dt_sub_seconds ⟨2025, 3, 1, 0, 30, 0⟩ 3600 =
    some ⟨2025, 2, 28, 23, 30, 0⟩ := by decide

example :
    search_toks [Tok.dgt 4 (some 4), Tok.lit "年", Tok.dgt 1 (some 2), Tok.lit "月",
      Tok.dgt 1 (some 2), Tok.lit "日"] "x2099年1月1日y".toList =
    some ["2099".toList, "1".toList, "1".toList] := by decide

example :
    search_toks [Tok.dgt 4 (some 4), Tok.lit "年"] "12345年".toList =
    some ["2345".toList] := by decide

example :
    search_segs [(true, [Tok.dgt 4 (some 4), Tok.anyOf "-/", Tok.dgt 1 (some 2),
        Tok.anyOf "-/", Tok.dgt 1 (some 2)]), (false, [Tok.ws1]),
      (true, [Tok.dgt 1 (some 2), Tok.lit ":", Tok.dgt 2 (some 2)])]
      "on 2025-09/11  8:02 end".toList =
    some ["2025-09/11".toList, "8:02".toList] := by decide

example :
    match_toks_start [Tok.dgt 4 (some 4), Tok.lit "-", Tok.dgt 1 (some 2),
      Tok.lit "-", Tok.dgt 1 (some 2), Tok.eos] "2025-9-112".toList = none := by decide

example :
    parse_publish_date no_fuzzy true ⟨2026, 10, 12, 9, 0, 0⟩
      "2025年9月11日 08:02" "" "" = some ⟨2025, 9, 11, 8, 2, 0⟩ := by decide

example :
    parse_publish_date no_fuzzy true ⟨2026, 10, 12, 9, 0, 0⟩
      "昨天 08:02" "" "" = some ⟨2026, 10, 11, 8, 2, 0⟩ := by decide

example :
    parse_publish_date no_fuzzy true ⟨2026, 10, 12, 9, 0, 0⟩
      "3小时前" "" "" = some ⟨2026, 10, 12, 6, 0, 0⟩ := by decide

example :
    parse_publish_date no_fuzzy true ⟨2026, 10, 12, 9, 0, 0⟩
      "not a date" "" "" = none := by decide

example :
    parse_publish_date no_fuzzy true ⟨2026, 10, 12, 9, 0, 0⟩
      "2025-09-11" "" "" = some ⟨2025, 9, 11, 12, 0, 0⟩ := by decide

example :
    parse_publish_date no_fuzzy true ⟨2026, 10, 12, 9, 0, 0⟩
      "" "发布于 2025-09-11 08:02 正文" "" = some ⟨2025, 9, 11, 8, 2, 0⟩ := by decide

example : (crawl_with_retry always_fail_fetch "http://e.x/a").calls = 3 := by decide
example : (crawl_with_retry always_fail_fetch "http://e.x/a").delays = [2, 4] := by decide

example : parse_ai_response " <finish /> " = AiDecision.finish := by decide
example : parse_ai_response "<keywords_to_search>AI, 芯片 ,</keywords_to_search>" =
    AiDecision.search ["AI", "芯片"] := by decide
example : parse_ai_response "<keywords_to_search> , </keywords_to_search>" =
    AiDecision.search [] := by decide
example : parse_ai_response "free text with no tags" = AiDecision.finish := by decide

/-! ## Supporting lemmas -/

theorem dt_lt_total {a b : Datetime} (h : ¬ dt_lt a b) : dt_le b a := by
  rcases a with ⟨ay, amo, ad, ah, ami, as⟩
  rcases b with ⟨by_, bmo, bd, bh, bmi, bs⟩
  unfold dt_le dt_lt at *
  dsimp only at *
  simp only [Datetime.mk.injEq]
  omega

theorem is_prefix_of_decomp : ∀ {l1 l2 : List Char},
    l1.isPrefixOf l2 = true → ∃ t, l2 = l1 ++ t := by
  intro l1
  induction l1 with
  | nil => intro l2 _; exact ⟨l2, rfl⟩
  | cons c cs ih =>
    intro l2 h
    cases l2 with
    | nil => simp [List.isPrefixOf] at h
    | cons b bs =>
      simp only [List.isPrefixOf, Bool.and_eq_true, beq_iff_eq] at h
      rcases ih h.2 with ⟨t, ht⟩
      exact ⟨t, by simp [h.1, ht]⟩

theorem is_prefix_of_append : ∀ (l1 t : List Char), l1.isPrefixOf (l1 ++ t) = true := by
  intro l1
  induction l1 with
  | nil => intro t; simp [List.isPrefixOf]
  | cons c cs ih => intro t; simp [List.isPrefixOf, ih]

theorem split_first_eq_some {pat l b a : List Char}
    (h : split_first pat l = some (b, a)) : l = b ++ pat ++ a := by
  induction l generalizing b a with
  | nil =>
    by_cases hp : pat.isEmpty
    · simp only [split_first, hp, if_pos, Option.some.injEq, Prod.mk.injEq] at h
      rcases h with ⟨hb, ha⟩
      simp [← hb, ← ha, List.isEmpty_iff.mp hp]
    · simp [split_first, hp] at h
  | cons c rest ih =>
    rw [split_first] at h
    by_cases hp : pat.isPrefixOf (c :: rest)
    · rw [if_pos hp] at h
      simp only [Option.some.injEq, Prod.mk.injEq] at h
      rcases h with ⟨hb, ha⟩
      rcases is_prefix_of_decomp hp with ⟨t, ht⟩
      subst hb
      simp only [List.nil_append]
      rw [ht] at ha ⊢
      rw [List.drop_left] at ha
      rw [ha]
    · rw [if_neg hp] at h
      cases hrec : split_first pat rest with
      | none => rw [hrec] at h; exact absurd h (by simp)
      | some p =>
        rw [hrec] at h
        simp only [Option.some.injEq, Prod.mk.injEq] at h
        have hr := ih (b := p.1) (a := p.2) (by rw [hrec])
        rw [← h.1, ← h.2]
        simp [hr]

theorem split_first_eq_none {pat l : List Char}
    (h : split_first pat l = none) : ∀ b a, l ≠ b ++ pat ++ a := by
  induction l with
  | nil =>
    intro b a hl
    by_cases hp : pat.isEmpty
    · simp [split_first, hp] at h
    · have hpat : pat ≠ [] := fun he => hp (by simp [he])
      rcases b with _ | ⟨b0, bs⟩
      · rcases pat with _ | ⟨p, ps⟩
        · exact hpat rfl
        · simp at hl
      · simp at hl
  | cons c rest ih =>
    intro b a hl
    rw [split_first] at h
    by_cases hp : pat.isPrefixOf (c :: rest)
    · rw [if_pos hp] at h; exact absurd h (by simp)
    · rw [if_neg hp] at h
      rcases b with _ | ⟨b0, bs⟩
      · simp only [List.nil_append] at hl
        exact hp (by rw [hl]; exact is_prefix_of_append pat a)
      · rw [List.cons_append, List.cons_append] at hl
        injection hl with _ hl2
        cases hrec : split_first pat rest with
        | none => exact ih hrec bs a hl2
        | some p => rw [hrec] at h; exact absurd h (by simp)

theorem contains_sub_of_decomp {l pat b a : List Char}
    (h : l = b ++ pat ++ a) : contains_sub l pat = true := by
  unfold contains_sub
  cases hs : split_first pat l with
  | none => exact absurd h (split_first_eq_none hs b a)
  | some p => simp

/-- First occurrences split earliest: the prefix returned by `split_first`
is never longer than the prefix of any other occurrence. -/
theorem split_first_min {pat l b a : List Char}
    (h : split_first pat l = some (b, a)) :
    ∀ b2 a2, l = b2 ++ pat ++ a2 → b.length ≤ b2.length := by
  induction l generalizing b a with
  | nil =>
    intro b2 a2 _
    by_cases hp : pat.isEmpty
    · simp only [split_first, hp, if_pos, Option.some.injEq, Prod.mk.injEq] at h
      simp [← h.1]
    · simp [split_first, hp] at h
  | cons c rest ih =>
    intro b2 a2 hl
    rw [split_first] at h
    by_cases hp : pat.isPrefixOf (c :: rest)
    · rw [if_pos hp] at h
      simp only [Option.some.injEq, Prod.mk.injEq] at h
      simp [← h.1]
    · rw [if_neg hp] at h
      rcases b2 with _ | ⟨c2, bs2⟩
      · exfalso
        simp only [List.nil_append] at hl
        exact hp (by rw [hl]; exact is_prefix_of_append pat a2)
      · rw [List.cons_append, List.cons_append] at hl
        injection hl with _ hl2
        cases hrec : split_first pat rest with
        | none => rw [hrec] at h; exact absurd h (by simp)
        | some p =>
          rw [hrec] at h
          simp only [Option.some.injEq, Prod.mk.injEq] at h
          have hb := ih (b := p.1) (a := p.2) (by rw [hrec]) bs2 a2 hl2
          rw [← h.1]
          simpa using hb

theorem trim_chars_decomp (l : List Char) :
    ∃ u v, l = u ++ trim_chars l ++ v := by
  have h1 : l.dropWhile is_ws_ch =
      trim_chars l ++ ((l.dropWhile is_ws_ch).reverse.takeWhile is_ws_ch).reverse := by
    unfold trim_chars
    conv_lhs =>
      rw [← List.reverse_reverse (l.dropWhile is_ws_ch),
        ← List.takeWhile_append_dropWhile (p := is_ws_ch)
          (l := (l.dropWhile is_ws_ch).reverse)]
    rw [List.reverse_append]
  refine ⟨l.takeWhile is_ws_ch,
    ((l.dropWhile is_ws_ch).reverse.takeWhile is_ws_ch).reverse, ?_⟩
  conv_lhs => rw [← List.takeWhile_append_dropWhile (p := is_ws_ch) (l := l)]
  nth_rewrite 1 [h1]
  simp [List.append_assoc]

theorem contains_sub_trim {l pat : List Char}
    (h : contains_sub (trim_chars l) pat = true) : contains_sub l pat = true := by
  unfold contains_sub at h
  cases hs : split_first pat (trim_chars l) with
  | none => rw [hs] at h; simp at h
  | some p =>
    have hdec := split_first_eq_some (b := p.1) (a := p.2) (by rw [hs])
    rcases trim_chars_decomp l with ⟨u, v, huv⟩
    refine contains_sub_of_decomp (b := u ++ p.1) (a := p.2 ++ v) ?_
    rw [huv, hdec]
    simp [List.append_assoc]

theorem success_url_exists_false {store : List CrawlRecord} {url : String}
    (h : success_url_exists store url = false) :
    ∀ r ∈ store, ¬(r.status = RecStatus.success ∧ r.url = url) := by
  intro r hr hcon
  unfold success_url_exists at h
  have h2 : ¬ (store.any (fun r => r.url = url && r.status = RecStatus.success) = true) := by
    simp [h]
  rw [List.any_eq_true] at h2
  exact h2 ⟨r, hr, by simp [hcon.1, hcon.2]⟩

theorem save_single_result_preserves (fz : String → Option Datetime) (av : Bool)
    (now : Datetime) (res : CrawlResult) (cid : Nat) (store : List CrawlRecord)
    (h : unique_success store) :
    unique_success (save_single_result fz av now res cid store).1 := by
  unfold save_single_result
  by_cases hex : success_url_exists store res.url
  · simpa [hex] using h
  · have hex2 : success_url_exists store res.url = false := by
      simpa using hex
    by_cases hs : res.success
    · simp only [hex2, Bool.false_eq_true, if_false, hs, if_true]
      unfold unique_success at h ⊢
      rw [List.pairwise_append]
      refine ⟨h, by simp, ?_⟩
      intro a ha b hb hcon
      simp only [List.mem_singleton] at hb
      subst hb
      exact success_url_exists_false hex2 a ha ⟨hcon.1, hcon.2.2⟩
    · simp only [hex2, Bool.false_eq_true, if_false, hs, if_true]
      unfold unique_success at h ⊢
      rw [List.pairwise_append]
      refine ⟨h, by simp, ?_⟩
      intro a ha b hb hcon
      simp only [List.mem_singleton] at hb
      subst hb
      simp at hcon

theorem save_search_result_preserves (now : Datetime) (res : CrawlResult)
    (kw : String) (st : DbState) (h : unique_success st.records) :
    unique_success (save_search_result_to_db now res kw st).records := by
  unfold save_search_result_to_db
  by_cases hex : success_url_exists st.records res.url
  · simpa [hex] using h
  · have hex2 : success_url_exists st.records res.url = false := by simpa using hex
    simp only [hex2, Bool.false_eq_true, if_false]
    unfold unique_success at h ⊢
    rw [List.pairwise_append]
    refine ⟨h, by simp, ?_⟩
    intro a ha b hb hcon
    simp only [List.mem_singleton] at hb
    subst hb
    exact success_url_exists_false hex2 a ha ⟨hcon.1, hcon.2.2⟩

theorem apply_persist_ops_preserve (ops : List PersistOp) (st : DbState)
    (h : unique_success st.records) :
    unique_success (apply_persist_ops ops st).records := by
  induction ops generalizing st with
  | nil => simpa [apply_persist_ops] using h
  | cons op rest ih =>
    have hstep : unique_success (apply_persist_op st op).records := by
      cases op with
      | crawl_save fz av now res cid => exact save_single_result_preserves fz av now res cid st.records h
      | search_save now res kw => exact save_search_result_preserves now res kw st h
    simpa [apply_persist_ops] using ih (apply_persist_op st op) hstep

theorem crawl_with_retry_go_url (fetch : Nat → FetchOutcome) (url : String) :
    ∀ fuel attempt delays err,
      (crawl_with_retry_go fetch url fuel attempt delays err).result.url = url := by
  intro fuel
  induction fuel with
  | zero => intro attempt delays err; rfl
  | succ n ih =>
    intro attempt delays err
    unfold crawl_with_retry_go
    dsimp only [FetchOutcome.toResult]
    by_cases hs : (fetch attempt).success
    · simp [hs]
    · simp only [hs, Bool.false_eq_true, if_false]
      exact ih (attempt + 1) _ _

theorem crawl_with_retry_url (fetch : Nat → FetchOutcome) (url : String) :
    (crawl_with_retry fetch url).result.url = url :=
  crawl_with_retry_go_url fetch url 3 0 [] ""

theorem crawl_with_retry_all_fail (fetch : Nat → FetchOutcome) (url : String)
    (h : ∀ i, i < 3 → (fetch i).success = false) :
    (crawl_with_retry fetch url).calls = 3 ∧
    (crawl_with_retry fetch url).result.success = false ∧
    (crawl_with_retry fetch url).delays = [2, 4] := by
  have h0 := h 0 (by omega)
  have h1 := h 1 (by omega)
  have h2 := h 2 (by omega)
  unfold crawl_with_retry crawl_with_retry_go
  simp [FetchOutcome.toResult, h0, h1, h2, crawl_with_retry_go]

theorem research_loop_iter_le (judge : Nat → List Article → String)
    (search_exec : Nat → List String → List Article) :
    ∀ fuel count kb log,
      (research_loop judge search_exec fuel count kb log).1 ≤ count + fuel := by
  intro fuel
  induction fuel with
  | zero => intro count kb log; simp [research_loop]
  | succ n ih =>
    intro count kb log
    unfold research_loop
    cases hdec : parse_ai_response (judge (count + 1) kb) with
    | finish => simp [hdec]
    | search kws =>
      by_cases hk : kws.isEmpty
      · simp [hdec, hk]
      · simp only [hdec, hk, Bool.false_eq_true, if_false]
        have := ih (count + 1) (kb ++ search_exec (count + 1) kws)
          (log ++ [⟨count + 1, AiDecision.search kws⟩])
        omega

theorem research_loop_always_search (judge : Nat → List Article → String)
    (search_exec : Nat → List String → List Article)
    (hj : ∀ (n : Nat) (kb : List Article),
      ∃ kws, parse_ai_response (judge n kb) = AiDecision.search kws ∧ kws ≠ []) :
    ∀ fuel count kb log,
      (research_loop judge search_exec fuel count kb log).1 = count + fuel := by
  intro fuel
  induction fuel with
  | zero => intro count kb log; simp [research_loop]
  | succ n ih =>
    intro count kb log
    unfold research_loop
    rcases hj (count + 1) kb with ⟨kws, hdec, hne⟩
    have hk : kws.isEmpty = false := by
      cases kws with
      | nil => exact absurd rfl hne
      | cons a t => rfl
    simp only [hdec, hk, Bool.false_eq_true, if_false]
    rw [ih]
    omega

theorem save_single_result_store (fz : String → Option Datetime) (av : Bool)
    (now : Datetime) (res : CrawlResult) (cid : Nat) (store : List CrawlRecord) :
    (save_single_result fz av now res cid store).1 = store ∨
    ∃ rec, (save_single_result fz av now res cid store).1 = store ++ [rec] ∧
      rec.url = res.url := by
  unfold save_single_result
  by_cases hex : success_url_exists store res.url
  · left; simp [hex]
  · have hex2 : success_url_exists store res.url = false := by simpa using hex
    by_cases hs : res.success
    · right
      refine ⟨⟨cid, res.url, res.title, res.content, res.author,
        parse_publish_date fz av now res.date res.markdown res.title, now,
        RecStatus.success, ""⟩, ?_, rfl⟩
      simp [hex2, hs]
    · right
      refine ⟨⟨cid, res.url, "", "", "", none, now, RecStatus.failed, res.error⟩, ?_, rfl⟩
      simp [hex2, hs]

/-- Behaviour of the fetch-and-persist fold of `run_crawler_task`:
the fetched list is exactly the processed URL list, and every record added
to the store carries the URL of one of the processed URLs. -/
theorem run_fold_spec (fetch : String → Nat → FetchOutcome)
    (fz : String → Option Datetime) (av : Bool) (now : Datetime) (cid : Nat) :
    ∀ (urls : List String) (st0 : List CrawlRecord) (sc fc : Nat) (fs : List String),
      (urls.foldl (fun acc url =>
        let tr := crawl_with_retry (fetch url) url
        let sv := save_single_result fz av now tr.result cid acc.1
        (sv.1,
          (if sv.2 then acc.2.1 + 1 else acc.2.1),
          (if sv.2 then acc.2.2.1 else acc.2.2.1 + 1),
          acc.2.2.2 ++ [url])) (st0, sc, fc, fs)).2.2.2 = fs ++ urls ∧
      (∀ r ∈ (urls.foldl (fun acc url =>
        let tr := crawl_with_retry (fetch url) url
        let sv := save_single_result fz av now tr.result cid acc.1
        (sv.1,
          (if sv.2 then acc.2.1 + 1 else acc.2.1),
          (if sv.2 then acc.2.2.1 else acc.2.2.1 + 1),
          acc.2.2.2 ++ [url])) (st0, sc, fc, fs)).1,
        r ∈ st0 ∨ r.url ∈ urls) := by
  intro urls
  induction urls with
  | nil => intro st0 sc fc fs; simp
  | cons u rest ih =>
    intro st0 sc fc fs
    simp only [List.foldl_cons]
    have hnext := ih (save_single_result fz av now
        (crawl_with_retry (fetch u) u).result cid st0).1
      (if (save_single_result fz av now (crawl_with_retry (fetch u) u).result cid st0).2
        then sc + 1 else sc)
      (if (save_single_result fz av now (crawl_with_retry (fetch u) u).result cid st0).2
        then fc else fc + 1)
      (fs ++ [u])
    constructor
    · rw [hnext.1]; simp
    · intro r hr
      rcases hnext.2 r hr with hin | hurl
      · rcases save_single_result_store fz av now
            (crawl_with_retry (fetch u) u).result cid st0 with heq | ⟨rec, heq, hu⟩
        · rw [heq] at hin; exact Or.inl hin
        · rw [heq] at hin
          rcases List.mem_append.mp hin with h1 | h2
          · exact Or.inl h1
          · right
            simp only [List.mem_singleton] at h2
            subst h2
            rw [hu, crawl_with_retry_url]
            simp
      · exact Or.inr (by simp [hurl])

/-! ## Claim theorems -/

/-- C7 (counterexample): the Knowledge Base Builder's `_parse_time_range`
maps the named range `14d` to the 24-hour default, not to its literal
336-hour duration as the claim states. -/
theorem C7_counterexample : parse_time_range "14d" ≠ 336 := by decide

/-- C7 (amended): `_parse_time_range` maps `24h` to 24, `3d` to 72, `7d`
to 168 and `30d` to 720 hours; every other input — including the named
range `14d` — is mapped to the 24-hour default. -/
theorem C7_time_window_mapping :
    parse_time_range "24h" = 24 ∧ parse_time_range "3d" = 72 ∧
    parse_time_range "7d" = 168 ∧ parse_time_range "30d" = 720 ∧
    parse_time_range "14d" = 24 ∧
    ∀ s : String, s ≠ "24h" → s ≠ "3d" → s ≠ "7d" → s ≠ "30d" →
      parse_time_range s = 24 := by
  refine ⟨by decide, by decide, by decide, by decide, by decide, ?_⟩
  intro s h1 h2 h3 h4
  unfold parse_time_range
  rw [if_neg h1, if_neg h2, if_neg h3, if_neg h4]

/-- C7 (witness): the general clause applied at the concrete input `99x`. -/
theorem C7_witness : parse_time_range "99x" = 24 :=
  C7_time_window_mapping.2.2.2.2.2 "99x" (by decide) (by decide) (by decide) (by decide)

/-- C5 (counterexample): with a fetch that fails on every attempt, the
delays slept by `_crawl_with_retry` are 2 s then 4 s — not the 1 s and 2 s
the claim states (the `2 ** attempt` backoff never sleeps for attempt 0). -/
theorem C5_counterexample :
    (crawl_with_retry always_fail_fetch "https://example.com/a").delays ≠ [1, 2] ∧
    (crawl_with_retry always_fail_fetch "https://example.com/a").delays = [2, 4] := by
  decide

/-- C5 (amended): the delays slept between successive fetch attempts
follow the schedule 2 s, 4 s (2 seconds before the second attempt,
4 seconds before the third); a run making fewer attempts sleeps only the
corresponding prefix of that schedule. -/
theorem C5_backoff_schedule :
    ∀ (fetch : Nat → FetchOutcome) (url : String),
      (crawl_with_retry fetch url).delays =
        [2, 4].take ((crawl_with_retry fetch url).calls - 1) := by
  intro fetch url
  by_cases h0 : (fetch 0).success <;> by_cases h1 : (fetch 1).success <;>
    by_cases h2 : (fetch 2).success <;>
      simp [crawl_with_retry, crawl_with_retry_go, FetchOutcome.toResult, h0, h1, h2]

/-- C2: the Research Decision Engine's loop runs at most 30 iterations for
every judge behaviour; with a judge that always answers `search` with a
non-empty keyword list (and a non-empty starting knowledge base), it stops
at exactly iteration 30 and still proceeds to report generation. -/
theorem C2_loop_termination_bound :
    (∀ (judge : Nat → List Article → String)
        (search_exec : Nat → List String → List Article)
        (compose : List Article → String) (init : List Article) (fk : String),
        (conduct_deep_research judge search_exec compose init fk).iterations ≤ 30) ∧
    (∀ (judge : Nat → List Article → String)
        (search_exec : Nat → List String → List Article)
        (compose : List Article → String) (init : List Article) (fk : String),
        init.isEmpty = false →
        (if fk ≠ "" then filter_articles_by_keywords init fk else init).isEmpty = false →
        (∀ (n : Nat) (kb : List Article),
          ∃ kws, parse_ai_response (judge n kb) = AiDecision.search kws ∧ kws ≠ []) →
        (conduct_deep_research judge search_exec compose init fk).iterations = 30 ∧
        (conduct_deep_research judge search_exec compose init fk).success = true ∧
        (conduct_deep_research judge search_exec compose init fk).report ≠ none) := by
  constructor
  · intro judge se compose init fk
    unfold conduct_deep_research
    by_cases h1 : init.isEmpty = true
    · rw [if_pos h1]; simp
    · rw [if_neg h1]
      by_cases h2 :
          (if fk ≠ "" then filter_articles_by_keywords init fk else init).isEmpty = true
      · rw [if_pos h2]; simp
      · rw [if_neg h2]
        have := research_loop_iter_le judge se 30 0
          (if fk ≠ "" then filter_articles_by_keywords init fk else init) []
        simpa using this
  · intro judge se compose init fk h1 h2 hj
    unfold conduct_deep_research
    rw [if_neg (by rw [h1]; simp), if_neg (by rw [h2]; simp)]
    have := research_loop_always_search judge se hj 30 0
      (if fk ≠ "" then filter_articles_by_keywords init fk else init) []
    refine ⟨by simpa using this, rfl, by simp⟩


theorem chip_judge_parse :
    parse_ai_response "<keywords_to_search>chip</keywords_to_search>" =
      AiDecision.search ["chip"] := by decide

/-- C2 (witness): the bound applied with a concrete always-search judge on
a one-article knowledge base. -/
theorem C2_witness :
    (conduct_deep_research always_search_judge (fun _ _ => []) (fun _ => "r")
      [demo_article] "").iterations = 30 ∧
    (conduct_deep_research always_search_judge (fun _ _ => []) (fun _ => "r")
      [demo_article] "").success = true ∧
    (conduct_deep_research always_search_judge (fun _ _ => []) (fun _ => "r")
      [demo_article] "").report ≠ none :=
  C2_loop_termination_bound.2 always_search_judge (fun _ _ => []) (fun _ => "r")
    [demo_article] "" (by decide) (by decide)
    (fun _ _ => ⟨["chip"], chip_judge_parse, by decide⟩)

/-- C3: a judge response containing neither finish marker and no
well-formed `keywords_to_search` block parses to the fail-safe `finish`
action; and a parsed `search` with an empty keyword list ends the research
loop at that iteration without running a search round (the knowledge base
is left untouched). -/
theorem C3_fail_safe_default :
    (∀ response : String,
        contains_sub response.toList "<finish />".toList = false →
        contains_sub response.toList "<finish/>".toList = false →
        (¬ ∃ pre mid post, response.toList =
          pre ++ kw_open_tag ++ mid ++ kw_close_tag ++ post) →
        parse_ai_response response = AiDecision.finish) ∧
    (∀ (judge : Nat → List Article → String)
        (search_exec : Nat → List String → List Article)
        (fuel count : Nat) (kb : List Article) (log : List LogEntry),
        parse_ai_response (judge (count + 1) kb) = AiDecision.search [] →
        research_loop judge search_exec (fuel + 1) count kb log =
          (count + 1, kb, log ++ [⟨count + 1, AiDecision.search []⟩])) := by
  constructor
  · intro response h1 h2 h3
    unfold parse_ai_response
    dsimp only
    have hf1 : contains_sub (trim_chars response.toList) "<finish />".toList = false := by
      by_contra hc
      rw [Bool.not_eq_false] at hc
      rw [contains_sub_trim hc] at h1
      exact absurd h1 (by simp)
    have hf2 : contains_sub (trim_chars response.toList) "<finish/>".toList = false := by
      by_contra hc
      rw [Bool.not_eq_false] at hc
      rw [contains_sub_trim hc] at h2
      exact absurd h2 (by simp)
    rw [hf1, hf2]
    simp only [Bool.or_self, Bool.false_eq_true, if_false]
    cases hext : extract_keywords_block (trim_chars response.toList) with
    | none => rfl
    | some block =>
      exfalso
      apply h3
      unfold extract_keywords_block at hext
      cases hs1 : split_first kw_open_tag (trim_chars response.toList) with
      | none => rw [hs1] at hext; exact absurd hext (by simp)
      | some p =>
        rw [hs1] at hext
        dsimp only at hext
        cases hs2 : split_first kw_close_tag p.2 with
        | none => rw [hs2] at hext; exact absurd hext (by simp)
        | some q =>
          have hd1 := split_first_eq_some (b := p.1) (a := p.2) (by rw [hs1])
          have hd2 := split_first_eq_some (b := q.1) (a := q.2) (by rw [hs2])
          rcases trim_chars_decomp response.toList with ⟨u, v, huv⟩
          refine ⟨u ++ p.1, q.1, q.2 ++ v, ?_⟩
          rw [huv, hd1, hd2]
          simp [List.append_assoc]
  · intro judge se fuel count kb log h
    unfold research_loop
    simp [h]


/-- C3 (witness): the fail-safe default on a concrete tagless reply, and
the loop stopping on a concrete empty-keyword `search` reply. -/
theorem C3_witness :
    parse_ai_response "plain reply" = AiDecision.finish ∧
    research_loop empty_search_judge (fun _ _ => []) 30 0 [demo_article] [] =
      (1, [demo_article], [⟨1, AiDecision.search []⟩]) := by
  constructor
  · exact C3_fail_safe_default.1 "plain reply" (by decide) (by decide)
      (fun hex => by
        rcases hex with ⟨pre, mid, post, he⟩
        have hc := @contains_sub_of_decomp "plain reply".toList kw_open_tag pre
          (mid ++ kw_close_tag ++ post)
          (by rw [he]; simp [List.append_assoc])
        exact absurd hc (by decide))
  · exact C3_fail_safe_default.2 empty_search_judge (fun _ _ => []) 29 0
      [demo_article] [] (by decide)

/-- C8: `run_crawler_task` updates the source's last-run timestamp on every
exit path — empty discovery, all URLs filtered out, the normal
fetch-and-persist pass, and the top-level exception handler. -/
theorem C8_last_run_always_updated :
    ∀ (fetch : String → Nat → FetchOutcome) (fz : String → Option Datetime)
      (av : Bool) (now : Datetime) (unexpected : Option String)
      (discovered : List String) (config : CrawlerConfig)
      (store : List CrawlRecord),
      (run_crawler_task fetch fz av now unexpected discovered config store).last_run
        = some now := by
  intro fetch fz av now unexpected discovered config store
  unfold run_crawler_task
  cases unexpected with
  | some e => rfl
  | none =>
    by_cases h1 : discovered.isEmpty = true
    · rw [if_pos h1]
    · rw [if_neg h1]
      by_cases h2 : (filter_new_urls discovered store).isEmpty = true
      · rw [if_pos h2]
      · rw [if_neg h2]

/-- C10: every record the research search path inserts carries
`publish_date = none`, and under the knowledge-base query ordering
(publish date descending, nulls last) a dateless record sorts after every
date-bearing record. -/
theorem C10_search_records_dateless :
    (∀ (now : Datetime) (res : CrawlResult) (kw : String) (st : DbState),
        success_url_exists st.records res.url = false →
        ∃ rec, (save_search_result_to_db now res kw st).records = st.records ++ [rec] ∧
          rec.publish_date = none ∧ rec.status = RecStatus.success ∧
          rec.url = res.url) ∧
    (∀ a b : CrawlRecord, a.publish_date = none →
        b.publish_date ≠ none → kb_order_le b a ∧ ¬ kb_order_le a b) := by
  constructor
  · intro now res kw st h
    unfold save_search_result_to_db
    rw [h]
    simp only [Bool.false_eq_true, if_false]
    exact ⟨_, rfl, rfl, rfl, rfl⟩
  · intro a b ha hb
    cases hbd : b.publish_date with
    | none => exact absurd hbd hb
    | some d => constructor <;> simp [kb_order_le, ha, hbd]


/-- C10 (witness): the insert applied on the empty store, and the ordering
facts applied to one dated and one dateless record. -/
theorem C10_witness :
    (∃ rec, (save_search_result_to_db demo_now demo_search_result "kw"
        ⟨[], []⟩).records = [] ++ [rec] ∧
      rec.publish_date = none ∧ rec.status = RecStatus.success ∧
      rec.url = demo_search_result.url) ∧
    (kb_order_le demo_dated_record demo_dateless_record ∧
      ¬ kb_order_le demo_dateless_record demo_dated_record) :=
  ⟨C10_search_records_dateless.1 demo_now demo_search_result "kw" ⟨[], []⟩ (by decide),
   C10_search_records_dateless.2 demo_dateless_record demo_dated_record rfl (by decide)⟩

theorem clamp_le (now p : Datetime) : dt_le (if dt_lt now p then now else p) now := by
  by_cases h : dt_lt now p
  · rw [if_pos h]; exact Or.inr rfl
  · rw [if_neg h]; exact dt_lt_total h

theorem english_formats_le (now : Datetime) (ds : List Char) (d : Datetime)
    (h : english_formats_result now ds = some d) : dt_le d now := by
  unfold english_formats_result at h
  cases he : english_parse (ds.map Char.toLower) with
  | none => rw [he] at h; exact absurd h (by simp)
  | some p =>
    rw [he] at h
    simp only [Option.some.injEq] at h
    rw [← h]
    exact clamp_le now p

/-- C1: every store state reachable from a state satisfying the
success-url uniqueness invariant by sequentially running the two
persistence operations still satisfies it; and each of the two paths,
finding an existing success record with the url, skips its insert (the
crawl path reporting no-op success). -/
theorem C1_success_url_uniqueness :
    (∀ (ops : List PersistOp) (st : DbState),
        unique_success st.records →
        unique_success (apply_persist_ops ops st).records) ∧
    (∀ (fz : String → Option Datetime) (av : Bool) (now : Datetime)
        (res : CrawlResult) (cid : Nat) (store : List CrawlRecord),
        success_url_exists store res.url = true →
        save_single_result fz av now res cid store = (store, true)) ∧
    (∀ (now : Datetime) (res : CrawlResult) (kw : String) (st : DbState),
        success_url_exists st.records res.url = true →
        (save_search_result_to_db now res kw st).records = st.records) := by
  refine ⟨apply_persist_ops_preserve, ?_, ?_⟩
  · intro fz av now res cid store h
    unfold save_single_result
    rw [if_pos h]
  · intro now res kw st h
    unfold save_search_result_to_db
    rw [if_pos h]


/-- C1 (witness): preservation from the empty store under one operation of
each kind, and both skip paths on a store already holding the url. -/
theorem C1_witness :
    unique_success (apply_persist_ops
      [PersistOp.crawl_save no_fuzzy true demo_now demo_search_result 1,
       PersistOp.search_save demo_now demo_search_result "kw"] ⟨[], []⟩).records ∧
    save_single_result no_fuzzy true demo_now demo_search_result 1
      [demo_existing_record] = ([demo_existing_record], true) ∧
    (save_search_result_to_db demo_now demo_search_result "kw"
      ⟨[], [demo_existing_record]⟩).records = [demo_existing_record] :=
  ⟨C1_success_url_uniqueness.1 _ ⟨[], []⟩ (by simp [unique_success]),
   C1_success_url_uniqueness.2.1 no_fuzzy true demo_now demo_search_result 1
     [demo_existing_record] (by decide),
   C1_success_url_uniqueness.2.2 demo_now demo_search_result "kw"
     ⟨[], [demo_existing_record]⟩ (by decide)⟩

/-- C4: a URL failing on every attempt costs exactly 3 fetch calls and one
single failed result; persisting that result adds exactly one failed
CrawlRecord for the URL; and a successful attempt short-circuits the
remaining retries. -/
theorem C4_retry_bound :
    (∀ (fetch : Nat → FetchOutcome) (url : String),
        (∀ i, i < 3 → (fetch i).success = false) →
        (crawl_with_retry fetch url).calls = 3 ∧
        (crawl_with_retry fetch url).result.success = false) ∧
    (∀ (fetch : Nat → FetchOutcome) (url : String)
        (fz : String → Option Datetime) (av : Bool) (now : Datetime)
        (cid : Nat) (store : List CrawlRecord),
        (∀ i, i < 3 → (fetch i).success = false) →
        success_url_exists store url = false →
        ∃ rec, save_single_result fz av now (crawl_with_retry fetch url).result cid store
            = (store ++ [rec], true) ∧ rec.status = RecStatus.failed ∧
          rec.url = url) ∧
    (∀ (fetch : Nat → FetchOutcome) (url : String) (k : Nat), k < 3 →
        (∀ i, i < k → (fetch i).success = false) → (fetch k).success = true →
        (crawl_with_retry fetch url).calls = k + 1 ∧
        (crawl_with_retry fetch url).result = (fetch k).toResult url) := by
  refine ⟨?_, ?_, ?_⟩
  · intro fetch url h
    exact ⟨(crawl_with_retry_all_fail fetch url h).1,
      (crawl_with_retry_all_fail fetch url h).2.1⟩
  · intro fetch url fz av now cid store h hex
    have hu := crawl_with_retry_url fetch url
    have hf := (crawl_with_retry_all_fail fetch url h).2.1
    refine ⟨⟨cid, url, "", "", "", none, now, RecStatus.failed,
      (crawl_with_retry fetch url).result.error⟩, ?_, rfl, rfl⟩
    unfold save_single_result
    rw [hu, hex, hf]
    simp
  · intro fetch url k hk h hsucc
    interval_cases k
    · simp [crawl_with_retry, crawl_with_retry_go, FetchOutcome.toResult, hsucc]
    · simp [crawl_with_retry, crawl_with_retry_go, FetchOutcome.toResult,
        h 0 (by omega), hsucc]
    · simp [crawl_with_retry, crawl_with_retry_go, FetchOutcome.toResult,
        h 0 (by omega), h 1 (by omega), hsucc]


/-- C4 (witness): the bound on an always-failing fetch, its persistence as
a single failed record from the empty store, and the short-circuit on a
fetch succeeding at the second attempt. -/
theorem C4_witness :
    ((crawl_with_retry always_fail_fetch "http://e.x/w").calls = 3 ∧
      (crawl_with_retry always_fail_fetch "http://e.x/w").result.success = false) ∧
    (∃ rec, save_single_result no_fuzzy true demo_now
        (crawl_with_retry always_fail_fetch "http://e.x/w").result 1 []
        = ([] ++ [rec], true) ∧ rec.status = RecStatus.failed ∧
      rec.url = "http://e.x/w") ∧
    ((crawl_with_retry demo_flaky_fetch "http://e.x/w").calls = 2 ∧
      (crawl_with_retry demo_flaky_fetch "http://e.x/w").result =
        (demo_flaky_fetch 1).toResult "http://e.x/w") :=
  ⟨C4_retry_bound.1 always_fail_fetch "http://e.x/w" (fun _ _ => rfl),
   C4_retry_bound.2.1 always_fail_fetch "http://e.x/w" no_fuzzy true demo_now 1 []
     (fun _ _ => rfl) (by decide),
   C4_retry_bound.2.2 demo_flaky_fetch "http://e.x/w" 1 (by omega)
     (fun i hi => by
       have h0 : i = 0 := by omega
       subst h0
       decide)
     (by decide)⟩

/-- C6 (counterexample): on the input `2099年1月1日` the Date Resolver
returns 2099-01-01 12:00 via the Chinese-pattern path, a timestamp
strictly in the future of the resolution time — no clamp is applied on
that path. -/
theorem C6_counterexample :
    parse_publish_date no_fuzzy true demo_now "2099年1月1日" "" "" =
      some ⟨2099, 1, 1, 12, 0, 0⟩ ∧
    dt_lt demo_now ⟨2099, 1, 1, 12, 0, 0⟩ := by decide

/-- C6 (amended): only the fuzzy-parser and English-format fallback paths
clamp — whenever the resolver's tail returns a timestamp, it is never
strictly after `now`; timestamps from the explicit Chinese-pattern and
numeric-format paths are returned as parsed and may lie in the future;
unresolvable input yields `none` rather than an error. -/
theorem C6_future_clamp :
    (∀ (fuzzy : String → Option Datetime) (av : Bool) (now : Datetime)
        (ds : List Char) (d : Datetime),
        fuzzy_english_tail fuzzy av now ds = some d → dt_le d now) ∧
    parse_publish_date no_fuzzy true demo_now "not a date" "" "" = none := by
  constructor
  · intro fuzzy av now ds d h
    unfold fuzzy_english_tail at h
    cases hav : av with
    | false =>
      rw [hav] at h
      simp only [Bool.false_eq_true, if_false] at h
      exact english_formats_le now ds d h
    | true =>
      rw [hav] at h
      simp only [if_true] at h
      cases hf : fuzzy (String.mk ds) with
      | none =>
        rw [hf] at h
        simp only [] at h
        exact english_formats_le now ds d h
      | some p =>
        rw [hf] at h
        simp only [Option.some.injEq] at h
        rw [← h]
        exact clamp_le now p
  · decide

/-- C6 (witness): the clamp clause applied to a fuzzy oracle that claims a
far-future date; the tail returns `now` itself. -/
theorem C6_witness : dt_le demo_now demo_now :=
  C6_future_clamp.1 (fun _ => some ⟨2099, 1, 1, 12, 0, 0⟩) true demo_now
    "x".toList demo_now (by decide)

/-- C9: in a normal run with candidates remaining, only the first 20
filtered new URLs are fetched (in order); dropped URLs beyond the cap are
never fetched; every record added to the store belongs to a fetched URL;
and the run still reports success. -/
theorem C9_per_run_fetch_cap :
    ∀ (fetch : String → Nat → FetchOutcome) (fz : String → Option Datetime)
      (av : Bool) (now : Datetime) (discovered : List String)
      (config : CrawlerConfig) (store : List CrawlRecord),
      discovered.isEmpty = false →
      (filter_new_urls discovered store).isEmpty = false →
      (run_crawler_task fetch fz av now none discovered config store).fetched =
        (filter_new_urls discovered store).take 20 ∧
      (run_crawler_task fetch fz av now none discovered config store).fetched.length ≤ 20 ∧
      (∀ u ∈ (filter_new_urls discovered store).drop 20,
        u ∉ (filter_new_urls discovered store).take 20 →
        u ∉ (run_crawler_task fetch fz av now none discovered config store).fetched) ∧
      (∀ r ∈ (run_crawler_task fetch fz av now none discovered config store).store,
        r ∈ store ∨ r.url ∈ (filter_new_urls discovered store).take 20) ∧
      (∃ sc fc,
        (run_crawler_task fetch fz av now none discovered config store).outcome =
          RunOutcome.stats true sc fc (sc + fc)) := by
  intro fetch fz av now discovered config store h1 h2
  have hspec := run_fold_spec fetch fz av now config.id
    ((filter_new_urls discovered store).take 20) store 0 0 []
  unfold run_crawler_task
  rw [if_neg (by rw [h1]; simp), if_neg (by rw [h2]; simp)]
  dsimp only
  refine ⟨?_, ?_, ?_, ?_, ?_⟩
  · rw [hspec.1]; simp
  · rw [hspec.1]
    simp [List.length_take_le]
  · intro u _ hnot
    rw [hspec.1]
    simpa using hnot
  · intro r hr
    exact hspec.2 r hr
  · exact ⟨_, _, rfl⟩


/-- C9 (witness): the cap facts applied on a concrete one-URL run with an
always-failing fetch. -/
theorem C9_witness :
    (run_crawler_task (fun _ => always_fail_fetch) no_fuzzy true demo_now none
        ["http://e.x/1"] demo_config []).fetched =
      (filter_new_urls ["http://e.x/1"] []).take 20 ∧
    (run_crawler_task (fun _ => always_fail_fetch) no_fuzzy true demo_now none
        ["http://e.x/1"] demo_config []).fetched.length ≤ 20 ∧
    (∀ u ∈ (filter_new_urls ["http://e.x/1"] []).drop 20,
      u ∉ (filter_new_urls ["http://e.x/1"] []).take 20 →
      u ∉ (run_crawler_task (fun _ => always_fail_fetch) no_fuzzy true demo_now none
        ["http://e.x/1"] demo_config []).fetched) ∧
    (∀ r ∈ (run_crawler_task (fun _ => always_fail_fetch) no_fuzzy true demo_now none
        ["http://e.x/1"] demo_config []).store,
      r ∈ ([] : List CrawlRecord) ∨
        r.url ∈ (filter_new_urls ["http://e.x/1"] []).take 20) ∧
    (∃ sc fc,
      (run_crawler_task (fun _ => always_fail_fetch) no_fuzzy true demo_now none
        ["http://e.x/1"] demo_config []).outcome =
        RunOutcome.stats true sc fc (sc + fc)) :=
  C9_per_run_fetch_cap (fun _ => always_fail_fetch) no_fuzzy true demo_now
    ["http://e.x/1"] demo_config [] (by decide) (by decide)
